import Mathlib

/-!
Verification of the SSI-IOV identity / consent platform core.

This file gives a shallow embedding of the core operations of the
repository (address pool manager, identity lifecycle, consent engine,
DIDComm envelope codec) and proves or refutes the specified properties
about them.  Every definition is translated from the Python source
(`services/address_manager.py`, `services/did_services.py`,
`services/wallet_service.py`, `api/server.py`, `main.py`) unless its
doc comment says otherwise.
-/

set_option linter.unusedVariables false

namespace SSIIOV

/-! ## Address Pool Manager (`services/address_manager.py`)

The pool state is the `addresses` dictionary: an `available` list of
`(address, private_key)` records and a `used` map from logical identity
(`user_id`) to such a record.  The ledger is consulted through
`is_address_registered`, modelled as `regQ : String → Option Bool`
(`none` models the query raising an exception, which the Python code
catches).  Account balances are modelled as `bal : String → Bool` and
the Ganache connection status as `connOk : Bool`. -/

/-- Record stored in both pool lists: a ledger address and its signing key. -/
structure AddrEntry where
  address : String
  private_key : String
deriving DecidableEq, Repr

/-- The persisted pool state: `available` list plus `used` bindings. -/
structure PoolState where
  available : List AddrEntry
  used : List (String × AddrEntry)
deriving DecidableEq, Repr

/-- Python `user_id in self.addresses['used']` plus the subsequent indexing. -/
def lookupUsed (used : List (String × AddrEntry)) (uid : String) : Option AddrEntry :=
  (used.find? (fun p => p.1 == uid)).map (fun p => p.2)

/-- Python `self.addresses['used'].pop(user_id)`'s effect on the map. -/
def removeUsed (used : List (String × AddrEntry)) (uid : String) : List (String × AddrEntry) :=
  used.filter (fun p => p.1 != uid)

/-- The ten hard-coded Ganache test accounts of `_load_addresses`. -/
def ganacheTestAccounts : List AddrEntry :=
  [ ⟨"0x54b99Dc1C2f505CF0fAA465eCdA78c872b3749cC",
     "0xd09777239f86e807e5fbd5db02fe4cff51dcbc77b598dfcea6c62aea4117acd8"⟩,
    ⟨"0xF86C6fD8d11Bd7a5C4F19301BA6ab4Da0B69B206",
     "0xf30129e3a83a00cc00ffd35f43e6736102a64996074a01ea92abe12767e5fa4f"⟩,
    ⟨"0x53799B8c448521A6bA35CC4C78DD66dD804ce8a8",
     "0x319b7d2ee2f737787132c25e23a165467ae9f33e894bd27c80a840506b38014c"⟩,
    ⟨"0xdc2190cF7895688D2FEE20716cB7dD6dEBB30b56",
     "0x17fb49e5ec17ca0be9600cc9bc20fe953620c98cd50ddb3ca64296a158f5e089"⟩,
    ⟨"0x71980E1D5E4f176ADFE7bd90b968045B389274c7",
     "0x0350589197961a95ce7b2f20c6572e2935e2d1b71ea148cb8db115bd529dd0cf"⟩,
    ⟨"0x1A23AD04C94FEEe69d12b9F95b1F83fff0B6EB23",
     "0xe99d4ee80bde64c73c7677e8eea1290f3bf8141de6d1cbe6554f4ff22900b7cc"⟩,
    ⟨"0xA6b36a8E07e04F1295E609bc523fb9bC21900Bf1",
     "0xf3b9e5106823ff4393427367423ced5d74c8e8ffed38266d16808502e99b123b"⟩,
    ⟨"0x44E4947b4E64DB6AE0697F7fc479f0BC7ec70CC7",
     "0xe1d9daa75524b61b8abd701ccdc9d16b8bea6397ae9bf6df0fe91d90f4841516"⟩,
    ⟨"0xCDc10fDFBfF34Cb71180857D89756639799Ba78d",
     "0xb69bcb1262256040a2e1f90c31245a0d89664e20402bd8a7595c5ff7b01d0c07"⟩,
    ⟨"0xF8a4c9d195B8Fcc4d453daB43afF54ba93d36311",
     "0x5edc5c96c4cd7e3e3378664d1380063df70fee8d539356650d2dd9b8262bad47"⟩ ]

/-- `AddressManager._load_addresses`: rebuild `available` from the fixed
Ganache account list, keeping the persisted `used` map; an account is
added only when it is not already used, has a positive balance, and the
ledger reports it unregistered (`regQ = some false`; an exception from
the registration query — `none` — skips the account).  A connection
failure (`connOk = false`) resets the whole state to empty, as the
outer `except` branch does. -/
def loadAddresses (regQ : String → Option Bool) (bal : String → Bool) (connOk : Bool)
    (s : PoolState) : PoolState :=
  if connOk then
    let usedAddresses := s.used.map (fun p => p.2.address)
    { available := ganacheTestAccounts.filter
        (fun a => !(usedAddresses.contains a.address) && bal a.address
                  && (regQ a.address == some false)),
      used := s.used }
  else ⟨[], []⟩

/-- `AddressManager.get_address`: return the existing binding if present;
else pop the head of `available` and bind it; else reload from Ganache
and retry once; else return `none`. -/
def getAddress (regQ : String → Option Bool) (bal : String → Bool) (connOk : Bool)
    (s : PoolState) (uid : String) : Option (String × String) × PoolState :=
  match lookupUsed s.used uid with
  | some e => (some (e.address, e.private_key), s)
  | none =>
    match s.available with
    | e :: rest => (some (e.address, e.private_key), ⟨rest, s.used ++ [(uid, e)]⟩)
    | [] =>
      let s1 := loadAddresses regQ bal connOk s
      match s1.available with
      | e :: rest => (some (e.address, e.private_key), ⟨rest, s1.used ++ [(uid, e)]⟩)
      | [] => (none, s1)

/-- `AddressManager.release_address`: if `uid` has a binding, pop it from
`used`; the bound address is appended back to `available` only when the
ledger reports it unregistered (`some false`).  If the ledger says
registered (`some true`) or the query raises (`none`), the address is
not re-added anywhere. -/
def releaseAddress (regQ : String → Option Bool) (s : PoolState) (uid : String) : PoolState :=
  match lookupUsed s.used uid with
  | none => s
  | some e =>
    match regQ e.address with
    | some false => ⟨s.available ++ [e], removeUsed s.used uid⟩
    | some true => ⟨s.available, removeUsed s.used uid⟩
    | none => ⟨s.available, removeUsed s.used uid⟩

/-- Addresses currently in the available pool. -/
abbrev availAddrs (s : PoolState) : List String := s.available.map (fun e => e.address)

/-- Addresses currently bound in the used map. -/
abbrev usedAddrs (s : PoolState) : List String := s.used.map (fun p => p.2.address)

/-- Logical identities currently bound in the used map. -/
abbrev usedKeys (s : PoolState) : List String := s.used.map (fun p => p.1)

/-- The pool uniqueness invariant: addresses are pairwise distinct within
each side, the two sides are disjoint, each identity is bound at most
once, and no available address is reported registered by the ledger. -/
structure PoolInv (regQ : String → Option Bool) (s : PoolState) : Prop where
  avail_nodup : (availAddrs s).Nodup
  used_nodup : (usedAddrs s).Nodup
  keys_nodup : (usedKeys s).Nodup
  disjoint : ∀ a ∈ availAddrs s, a ∉ usedAddrs s
  no_registered : ∀ e ∈ s.available, regQ e.address ≠ some true

/-- A pool operation: `acquire` is `get_address`, `release` is
`release_address`, `reload` is `_load_addresses`. -/
inductive PoolOp where
  | acquire (uid : String) (bal : String → Bool) (connOk : Bool)
  | release (uid : String)
  | reload (bal : String → Bool) (connOk : Bool)

/-- One step of the pool state machine. -/
def poolStep (regQ : String → Option Bool) (s : PoolState) : PoolOp → PoolState
  | .acquire uid bal connOk => (getAddress regQ bal connOk s uid).2
  | .release uid => releaseAddress regQ s uid
  | .reload bal connOk => loadAddresses regQ bal connOk s

/-! ## Verifiable credentials (`services/did_services.py`)

`create_credential` builds the credential dictionary, signs its JSON
serialization with the issuer's stored private key, attaches the proof
and stores the result on the ledger keyed by the fresh credential id.
`verify_credential` retrieves the stored credential by id and parses it.
RSA-PSS signing and `json.dumps` are abstracted as function parameters
`sign` and `ser`; storing and re-parsing a credential round-trips to
the same dictionary, so the ledger holds `VC` values directly. -/

/-- The `proof` block attached to a credential. -/
structure VCProof where
  ptype : String
  created : String
  verificationMethod : String
  signatureValue : String
deriving DecidableEq, Repr

/-- A verifiable credential as built by `create_credential`:
`credentialSubject` is the subject id plus the claim fields. -/
structure VC where
  id : String
  ctype : List String
  issuer : String
  issuanceDate : String
  subjectId : String
  claims : List (String × String)
  proof : Option VCProof
deriving DecidableEq, Repr

/-- Modelled from the spec: the ledger credential store consumed through
`storeDIDDocument`/`getCredential` (the smart contract itself is not in
the source tree) is a keyed store from credential id to the stored
credential, written at issuance and read back by `verify_credential`. -/
abbrev CredLedger := List (String × VC)

/-- Read a stored credential by id. -/
def ledgerGet (l : CredLedger) (cid : String) : Option VC :=
  (l.find? (fun p => p.1 == cid)).map (fun p => p.2)

/-- Store a credential under an id (overwriting any previous value). -/
def ledgerPut (l : CredLedger) (cid : String) (vc : VC) : CredLedger :=
  (cid, vc) :: l.filter (fun p => p.1 != cid)

/-- Python `claims["type"] if "type" in claims`. -/
def lookupClaim (claims : List (String × String)) (k : String) : Option String :=
  (claims.find? (fun p => p.1 == k)).map (fun p => p.2)

/-- Mutate the credential stored under `cid` in place (the post-issuance
tampering experiment of the round-trip property). -/
def mutateStored (l : CredLedger) (cid : String) (f : VC → VC) : CredLedger :=
  l.map (fun p => if p.1 == cid then (p.1, f p.2) else p)

/-- `DIDService.create_credential`: look up the issuer's pool address
(`addrInfo`; a missing address raises, caught as `none`), fetch the
issuer's private key (`keyOf`; missing key material raises, caught as
`none`), build the credential body, sign its serialization, attach the
proof, and store the full credential keyed by the fresh `credId`.
`storeOk = false` models `store_did_document` returning falsy, which
raises and yields `None`. -/
def create_credential
    (addrInfo : Option (String × String))
    (keyOf : String → Option String)
    (sign : String → String → String)
    (ser : VC → String)
    (credId issuanceDate proofCreated : String)
    (storeOk : Bool)
    (ledger : CredLedger)
    (issuer subject : String) (claims : List (String × String)) :
    Option VC × CredLedger :=
  match addrInfo with
  | none => (none, ledger)
  | some _ =>
    match keyOf issuer with
    | none => (none, ledger)
    | some pk =>
      let body : VC :=
        { id := credId
          ctype := "VerifiableCredential" ::
            (match lookupClaim claims "type" with
             | some t => [t]
             | none => [])
          issuer := issuer
          issuanceDate := issuanceDate
          subjectId := subject
          claims := claims
          proof := none }
      let sig := sign pk (ser body)
      let full := { body with
        proof := some ⟨"RsaSignature2018", proofCreated, issuer ++ "#keys-1", sig⟩ }
      if storeOk then (some full, ledgerPut ledger credId full)
      else (none, ledger)

/-- `DIDService.verify_credential`: retrieve the credential from the
ledger by id and parse it; it is returned as-is when present and the
result is `None` only when nothing is stored under the id.  No
signature or digest check is performed. -/
def verify_credential (ledger : CredLedger) (credential_id : String) : Option VC :=
  ledgerGet ledger credential_id

/-! ## Identity creation saga (`DIDService.create_did`)

`create_did` acquires a pool address for the entity DID, registers the
user on the ledger, then stores the entity and wallet documents.  The
three explicit failure branches call `release_address` and return
`None`; the `except` branch returns `None` and releases only when a
variable named `user_id` exists in `locals()` — `create_did` never
defines `user_id`, so no release happens there. -/

/-- Which step of `create_did` fails (the explicit falsy-return branches
and the catch-all exception branch). -/
inductive CreateFailure where
  | registerUserFails
  | entityDocStoreFails
  | walletDocStoreFails
  | exceptionAfterAcquire
  | noFailure
deriving DecidableEq, Repr

/-- Result of a `create_did` run: the returned value (abstracted to
success/failure), the pool state afterwards, and whether
`release_address` was invoked. -/
structure CreateOutcome where
  result : Option Unit
  pool : PoolState
  releaseCalled : Bool
deriving DecidableEq, Repr

/-- Modelled from the spec: a successful `registerUser` ledger
transaction marks the submitting account registered (the smart
contract is consumed only through its function surface and is not in
the source tree), so registration queries made afterwards report the
acquired address as registered. -/
def registerEffect (regQ : String → Option Bool) (addr : String) : String → Option Bool :=
  fun a => if a == addr then some true else regQ a

/-- `DIDService.create_did`, restricted to its pool/ledger effects.
After a successful acquisition the run either succeeds, fails at one of
the three explicit ledger-write checks (each calls `release_address`
and returns `None`; the two document-store failures query the ledger
after `register_user` succeeded, hence through
`registerEffect regQ address`), or aborts with an exception
(returns `None` without any release, since the `'user_id' in locals()`
guard is never true). -/
def create_did (regQ : String → Option Bool) (bal : String → Bool) (connOk : Bool)
    (s : PoolState) (entity_did : String) (failure : CreateFailure) : CreateOutcome :=
  match getAddress regQ bal connOk s entity_did with
  | (none, s1) => ⟨none, s1, false⟩
  | (some ai, s1) =>
    match failure with
    | .registerUserFails => ⟨none, releaseAddress regQ s1 entity_did, true⟩
    | .entityDocStoreFails =>
        ⟨none, releaseAddress (registerEffect regQ ai.1) s1 entity_did, true⟩
    | .walletDocStoreFails =>
        ⟨none, releaseAddress (registerEffect regQ ai.1) s1 entity_did, true⟩
    | .exceptionAfterAcquire => ⟨none, s1, false⟩
    | .noFailure => ⟨some (), s1, false⟩

/-! ## Ownership transfer (`DIDService.update_did_document`, mode c)

With `car_did` supplied and `credential = None`, `update_did_document`
loads the vehicle document, ensures `info` has a first block, appends
the current `owner_did` (or `None` when absent) to `previous_owners`,
and overwrites `owner_did` with the new owner's DID. -/

/-- The first `info` block of a vehicle document, restricted to the
fields touched by the ownership transfer (`owner_did`,
`previous_owners`; `none` models an absent dictionary key). -/
structure InfoBlock where
  owner_did : Option String
  previous_owners : Option (List (Option String))
deriving DecidableEq, Repr

/-- A vehicle DID document, restricted to its `info` list. -/
structure VehicleDoc where
  info : List InfoBlock
deriving DecidableEq, Repr

/-- The empty dictionary pushed when `info` is missing or empty. -/
def emptyBlock : InfoBlock := ⟨none, none⟩

/-- One ownership transfer (mode c of `update_did_document`) with the
new owner's DID. -/
def transferOwnership (newOwnerDid : String) (doc : VehicleDoc) : VehicleDoc :=
  let info := if doc.info.isEmpty then [emptyBlock] else doc.info
  match info with
  | [] => doc
  | b :: rest =>
    let prev := b.previous_owners.getD []
    ⟨⟨some newOwnerDid, some (prev ++ [b.owner_did])⟩ :: rest⟩

/-- N successive ownership transfers, oldest first. -/
def transferMany (owners : List String) (doc : VehicleDoc) : VehicleDoc :=
  owners.foldl (fun d o => transferOwnership o d) doc

/-! ## Policy check (`WalletService.check_permission`) -/

/-- A per-data-type sharing policy. -/
structure Policy where
  share_with : List String
  requires_consent : Bool
  auto_share_emergency : Bool
deriving DecidableEq, Repr

/-- A wallet record, restricted to its policy matrix. -/
structure WalletRec where
  policies : List (String × Policy)
deriving DecidableEq, Repr

/-- Dictionary lookup by string key. -/
def lookupStr {α : Type} (l : List (String × α)) (k : String) : Option α :=
  (l.find? (fun p => p.1 == k)).map (fun p => p.2)

/-- `WalletService.check_permission`: missing wallet or missing policy
deny; emergencies auto-approve when configured; requester types outside
`share_with` deny; consent-requiring non-emergencies deny; the rest
auto-approve.  `false` covers both the denial and the
needs-wallet-approval (non-auto-approved) outcomes, as in the source. -/
def check_permission (wallets : List (String × WalletRec))
    (requester_type owner_did data_type : String) (is_emergency : Bool) : Bool :=
  match lookupStr wallets owner_did with
  | none => false
  | some w =>
    match lookupStr w.policies data_type with
    | none => false
    | some policy =>
      if is_emergency && policy.auto_share_emergency then true
      else if !(policy.share_with.contains requester_type) then false
      else if policy.requires_consent && !is_emergency then false
      else true

/-! ## Oracle-response handling (`api/server.py`, `respond_to_request`)

The four regex searches on the oracle text either capture a group or
fail; `p.decision = none` models a text with no Decision marker, and
`some g` a text where the marker matched with captured group `g`.
Absent markers default to the Python string `"None"` (decision, wallet
approval), `None` (justification) and `{}` (data).  The auto-share
branch fires exactly when the parsed wallet approval lowercases to
`"no"` and the parsed decision lowercases to `"approve"`; only that
branch records a `response_type = "approval"` interaction on the
ledger. -/

/-- Python `str.lower()` (ASCII case folding, which covers the marker
vocabulary). -/
def strLower (s : String) : String := ⟨s.data.map Char.toLower⟩

/-- Python `str.strip()`: drop leading and trailing whitespace. -/
def strTrim (s : String) : String :=
  ⟨((s.data.dropWhile Char.isWhitespace).reverse.dropWhile Char.isWhitespace).reverse⟩

/-- The outcome of the four `re.search` calls on the oracle's free text. -/
structure OracleParse where
  decision : Option String
  justification : Option String
  wallet_approval : Option String
  return_data : Option String
deriving DecidableEq, Repr

/-- Python `decision.group(1).strip() if decision else "None"`. -/
def decisionValue (p : OracleParse) : String :=
  match p.decision with
  | some s => strTrim s
  | none => "None"

/-- Python `wallet_approval.group(1).strip() if wallet_approval else "None"`. -/
def walletApprovalValue (p : OracleParse) : String :=
  match p.wallet_approval with
  | some s => strTrim s
  | none => "None"

/-- What `respond_to_request` does after parsing: either the auto-share
approval (response recorded on the ledger) or returning the response
body with nothing recorded. -/
inductive RespondOutcome where
  | approvalRecorded (request_id : String)
  | pendingBody
deriving DecidableEq, Repr

/-- `respond_to_request`'s decision logic: the pair is the outcome and
the number of `record_interaction` calls made. -/
def respond_to_request (request_id : String) (p : OracleParse) : RespondOutcome × Nat :=
  if strLower (walletApprovalValue p) == "no" && strLower (decisionValue p) == "approve" then
    (.approvalRecorded request_id, 1)
  else
    (.pendingBody, 0)

/-- The spec's stated parsing defaults (`decision = deny`,
`wallet_approval = no` on absent markers), stated for comparison with
the source's `"None"` sentinel defaults. -/
def respond_to_request_specDefaults (request_id : String) (p : OracleParse) :
    RespondOutcome × Nat :=
  let decision := match p.decision with
    | some s => strTrim s
    | none => "deny"
  let wallet := match p.wallet_approval with
    | some s => strTrim s
    | none => "no"
  if strLower wallet == "no" && strLower decision == "approve" then
    (.approvalRecorded request_id, 1)
  else
    (.pendingBody, 0)

/-! ## Inbox handling of pending requests (`main.py`, inbox tab)

For each pending request the vehicle's LLM (`process_request`) is
invoked first; only afterwards is the sender checked against the
blocked list, and a blocked sender's request is skipped with
`continue` (left pending, no response recorded).  Unblocked requests
are auto-denied (and the sender blocked) when the oracle text signals
unsafe motion together with suspicion, offered for manual decision when
motion-safe, and otherwise left alone. -/

/-- A `blocked_users` entry as built by `WalletService.block_user`. -/
structure BlockedUser where
  did : String
  blocked_at : String
  reason : String
deriving DecidableEq, Repr

/-- Python `sub in s` substring containment. -/
def containsSubstr (s sub : String) : Bool :=
  decide (sub.data <:+: s.data)

/-- How handling one pending request ends. -/
inductive InboxOutcome where
  | skippedBlocked
  | autoDenied (senderBlocked : Bool)
  | awaitManual
  | noAction
deriving DecidableEq, Repr

/-- Handling of one pending request in the vehicle inbox: the `Nat` is
the number of oracle (`llm_service.process_request`) calls made while
handling the request. -/
def handle_pending_request (blocked_users : List BlockedUser)
    (sender_did oracleText : String) : Nat × InboxOutcome :=
  let oracleCalls := 1
  let is_blocked := blocked_users.any (fun u => u.did == sender_did)
  if is_blocked then (oracleCalls, .skippedBlocked)
  else
    let is_motion_safe := containsSubstr oracleText "MOTION_SAFE"
    let is_suspicious := containsSubstr oracleText "SUSPICIOUS"
    if !is_motion_safe && is_suspicious then (oracleCalls, .autoDenied is_suspicious)
    else if is_motion_safe then (oracleCalls, .awaitManual)
    else (oracleCalls, .noAction)

/-! ## DIDComm envelope codec (`DIDService.encrypt_didcomm_message`,
`DIDService.decrypt_didcomm_message`)

Python dictionaries compare by key-value sets, so a message is modelled
as a function from keys to optional values. -/

/-- A value stored in a DIDComm message dictionary. -/
inductive PyVal where
  | str (s : String)
  | bool (b : Bool)
deriving DecidableEq, Repr

/-- A Python dictionary with string keys, up to dictionary equality. -/
def PyDict := String → Option PyVal

/-- `encrypt_didcomm_message`: `{**message, "encrypted": True,
"sender_key": ..., "recipient_key": ...}` — the body is kept in
plaintext, only the three tag fields are added. -/
def encrypt_didcomm_message (message : PyDict) (sender_key recipient_key : String) : PyDict :=
  fun k =>
    if k = "encrypted" then some (.bool true)
    else if k = "sender_key" then some (.str sender_key)
    else if k = "recipient_key" then some (.str recipient_key)
    else message k

/-- `decrypt_didcomm_message`: copy the dictionary and delete the three
tag fields; the `decryption_key` argument is never used. -/
def decrypt_didcomm_message (encrypted_message : PyDict) (decryption_key : String) : PyDict :=
  fun k =>
    if k = "encrypted" ∨ k = "sender_key" ∨ k = "recipient_key" then none
    else encrypted_message k

/-! ## Concrete demonstration values used by witnesses -/

/-- A concrete registration oracle for the C9 witness. -/
def regQdemo : String → Option Bool :=
  fun a => if a == "0x54b99Dc1C2f505CF0fAA465eCdA78c872b3749cC" then some true else some false

/-- A concrete pool state for the C9 witness. -/
def poolDemo : PoolState :=
  ⟨[⟨"0xA", "0xKa"⟩], [("u1", ⟨"0xB", "0xKb"⟩)]⟩

/-- A concrete operation sequence for the C9 witness. -/
def opsDemo : List PoolOp :=
  [.acquire "u2" (fun _ => true) true, .release "u1", .reload (fun _ => true) true,
   .acquire "u3" (fun _ => true) true]

/-- The policy instance named by the `check_permission` property:
share only with insurance, consent required, emergency auto-share on. -/
def insPolicy : Policy := ⟨["insurance"], true, true⟩

/-- A wallet store holding `insPolicy` for one owner and data type. -/
def insWallets : List (String × WalletRec) :=
  [("did:owner", ⟨[("vehicle_info", insPolicy)]⟩)]

/-- A concrete DIDComm message body for the codec witness. -/
def demoMessage : PyDict :=
  fun k => if k = "body" then some (.str "hello") else none

/-- A concrete keystore with key material for one issuer DID. -/
def demoKeys : String → Option String :=
  fun d => if d == "did:iss" then some "PK1" else none

/-- A concrete stand-in for the RSA-PSS signing primitive. -/
def demoSign : String → String → String :=
  fun pk m => "sig:" ++ pk ++ ":" ++ m

/-- A concrete stand-in for `json.dumps` on a credential body. -/
def demoSer : VC → String :=
  fun vc => vc.id ++ "|" ++ vc.issuer ++ "|" ++
    String.join (vc.claims.map (fun p => p.1 ++ "=" ++ p.2 ++ ";"))

/-- A concrete credential issuance run used in the C1 experiments. -/
def demoIssued : Option VC × CredLedger :=
  create_credential (some ("0xA", "0xK")) demoKeys demoSign demoSer
    "did:ssi:credential:c1" "2025-01-01T00:00:00" "2025-01-01T00:00:00"
    true [] "did:iss" "did:sub" [("mileage", "10000")]

/-! ## Helper lemmas about the pool -/

theorem lookupUsed_none_iff (used : List (String × AddrEntry)) (uid : String) :
    lookupUsed used uid = none ↔ ∀ p ∈ used, p.1 ≠ uid := by
  simp [lookupUsed, List.find?_eq_none]

theorem lookupUsed_some_mem (used : List (String × AddrEntry)) (uid : String) (e : AddrEntry)
    (h : lookupUsed used uid = some e) : (uid, e) ∈ used := by
  unfold lookupUsed at h
  cases hf : used.find? (fun p => p.1 == uid) with
  | none => rw [hf] at h; exact absurd h (by simp)
  | some p =>
    rw [hf] at h
    have hp := List.find?_some hf
    have hmem : p ∈ used := List.mem_of_find?_eq_some hf
    have h1 : p.1 = uid := by simpa using hp
    have h2 : p.2 = e := by simpa using h
    have hpe : p = (uid, e) := by
      cases p; simp_all
    rw [hpe] at hmem
    exact hmem

theorem releaseAddress_eq_of_none (regQ : String → Option Bool) (s : PoolState) (uid : String)
    (hl : lookupUsed s.used uid = none) : releaseAddress regQ s uid = s := by
  simp [releaseAddress, hl]

theorem releaseAddress_eq_of_unregistered (regQ : String → Option Bool) (s : PoolState)
    (uid : String) (e : AddrEntry) (hl : lookupUsed s.used uid = some e)
    (hr : regQ e.address = some false) :
    releaseAddress regQ s uid = ⟨s.available ++ [e], removeUsed s.used uid⟩ := by
  simp [releaseAddress, hl, hr]

theorem releaseAddress_eq_of_registered (regQ : String → Option Bool) (s : PoolState)
    (uid : String) (e : AddrEntry) (hl : lookupUsed s.used uid = some e)
    (hr : regQ e.address = some true) :
    releaseAddress regQ s uid = ⟨s.available, removeUsed s.used uid⟩ := by
  simp [releaseAddress, hl, hr]

theorem releaseAddress_eq_of_query_raises (regQ : String → Option Bool) (s : PoolState)
    (uid : String) (e : AddrEntry) (hl : lookupUsed s.used uid = some e)
    (hr : regQ e.address = none) :
    releaseAddress regQ s uid = ⟨s.available, removeUsed s.used uid⟩ := by
  simp [releaseAddress, hl, hr]

theorem getAddress_eq_of_bound (regQ : String → Option Bool) (bal : String → Bool)
    (connOk : Bool) (s : PoolState) (uid : String) (e : AddrEntry)
    (hl : lookupUsed s.used uid = some e) :
    getAddress regQ bal connOk s uid = (some (e.address, e.private_key), s) := by
  simp [getAddress, hl]

theorem getAddress_eq_of_pop (regQ : String → Option Bool) (bal : String → Bool)
    (connOk : Bool) (s : PoolState) (uid : String) (e : AddrEntry) (rest : List AddrEntry)
    (hl : lookupUsed s.used uid = none) (hav : s.available = e :: rest) :
    getAddress regQ bal connOk s uid
      = (some (e.address, e.private_key), ⟨rest, s.used ++ [(uid, e)]⟩) := by
  simp [getAddress, hl, hav]

theorem getAddress_eq_of_reload_pop (regQ : String → Option Bool) (bal : String → Bool)
    (connOk : Bool) (s : PoolState) (uid : String) (e : AddrEntry) (rest : List AddrEntry)
    (hl : lookupUsed s.used uid = none) (hav : s.available = [])
    (hav1 : (loadAddresses regQ bal connOk s).available = e :: rest) :
    getAddress regQ bal connOk s uid
      = (some (e.address, e.private_key),
         ⟨rest, (loadAddresses regQ bal connOk s).used ++ [(uid, e)]⟩) := by
  simp [getAddress, hl, hav, hav1]

theorem getAddress_eq_of_exhausted (regQ : String → Option Bool) (bal : String → Bool)
    (connOk : Bool) (s : PoolState) (uid : String)
    (hl : lookupUsed s.used uid = none) (hav : s.available = [])
    (hav1 : (loadAddresses regQ bal connOk s).available = []) :
    getAddress regQ bal connOk s uid = (none, loadAddresses regQ bal connOk s) := by
  simp [getAddress, hl, hav, hav1]

theorem not_mem_map_filter {α β : Type} (f : α → β) (l : List α)
    (hn : (l.map f).Nodup) (x : α) (hx : x ∈ l) (pred : α → Bool)
    (hpx : pred x = false) : f x ∉ (l.filter pred).map f := by
  intro hmem
  obtain ⟨y, hy, hfy⟩ := List.mem_map.mp hmem
  have hyl : y ∈ l := List.mem_of_mem_filter hy
  have hpy : pred y = true := List.of_mem_filter hy
  have hxy : y = x := List.inj_on_of_nodup_map hn hyl hx hfy
  rw [hxy, hpx] at hpy
  exact Bool.false_ne_true hpy

theorem ganacheAddrs_nodup : (ganacheTestAccounts.map (fun e => e.address)).Nodup := by
  decide

theorem poolInv_load (regQ : String → Option Bool) (bal : String → Bool) (connOk : Bool)
    (s : PoolState) (h : PoolInv regQ s) :
    PoolInv regQ (loadAddresses regQ bal connOk s) := by
  unfold loadAddresses
  split
  · refine ⟨?_, h.used_nodup, h.keys_nodup, ?_, ?_⟩
    · exact List.Nodup.sublist ((List.filter_sublist _).map _) ganacheAddrs_nodup
    · intro a ha
      simp only [availAddrs, List.mem_map] at ha
      obtain ⟨acc, hacc, rfl⟩ := ha
      have hq := List.of_mem_filter hacc
      simp only [Bool.and_eq_true, Bool.not_eq_true'] at hq
      have hcont : ((s.used.map (fun p => p.2.address)).contains acc.address) = false :=
        hq.1.1
      simp only [usedAddrs]
      intro hmem
      have hc2 : ((s.used.map (fun p => p.2.address)).contains acc.address) = true :=
        List.contains_iff_exists_mem_beq.mpr ⟨acc.address, hmem, by simp⟩
      rw [hcont] at hc2
      exact Bool.false_ne_true hc2
    · intro e he
      have hq := List.of_mem_filter he
      simp only [Bool.and_eq_true, beq_iff_eq] at hq
      rw [hq.2]
      simp
  · exact ⟨by simp [availAddrs], by simp [usedAddrs], by simp [usedKeys],
      by simp [availAddrs], by simp⟩

theorem poolInv_pop (regQ : String → Option Bool) (e : AddrEntry) (rest : List AddrEntry)
    (used : List (String × AddrEntry)) (uid : String)
    (h : PoolInv regQ ⟨e :: rest, used⟩)
    (hk : ∀ p ∈ used, p.1 ≠ uid) :
    PoolInv regQ ⟨rest, used ++ [(uid, e)]⟩ := by
  have h1 : (e.address :: rest.map (fun q => q.address)).Nodup := by
    simpa [availAddrs] using h.avail_nodup
  have h2 : (used.map (fun p => p.2.address)).Nodup := h.used_nodup
  have h3 : (used.map (fun p => p.1)).Nodup := h.keys_nodup
  have h4 : ∀ a, a ∈ e.address :: rest.map (fun q => q.address) →
      a ∉ used.map (fun p => p.2.address) := by
    intro a ha
    exact h.disjoint a (by simpa [availAddrs] using ha)
  have h5 : ∀ x ∈ e :: rest, regQ x.address ≠ some true := h.no_registered
  have h1' := List.nodup_cons.mp h1
  have he_used : e.address ∉ used.map (fun p => p.2.address) :=
    h4 e.address (List.mem_cons_self _ _)
  refine ⟨h1'.2, ?_, ?_, ?_, ?_⟩
  · show ((used ++ [(uid, e)]).map (fun p => p.2.address)).Nodup
    simp only [List.map_append, List.map_cons, List.map_nil]
    rw [List.nodup_append]
    refine ⟨h2, List.nodup_singleton _, ?_⟩
    intro a ha hb
    simp only [List.mem_singleton] at hb
    exact he_used (hb ▸ ha)
  · show ((used ++ [(uid, e)]).map (fun p => p.1)).Nodup
    simp only [List.map_append, List.map_cons, List.map_nil]
    rw [List.nodup_append]
    refine ⟨h3, List.nodup_singleton _, ?_⟩
    intro k hkmem hb
    simp only [List.mem_singleton] at hb
    simp only [List.mem_map] at hkmem
    obtain ⟨p, hp, rfl⟩ := hkmem
    exact hk p hp hb
  · intro a ha
    have ha' : a ∈ rest.map (fun q => q.address) := by simpa [availAddrs] using ha
    have hne : a ≠ e.address := fun hc => h1'.1 (hc ▸ ha')
    intro hmem
    simp only [usedAddrs, List.map_append, List.map_cons, List.map_nil,
      List.mem_append, List.mem_singleton] at hmem
    rcases hmem with hc | hc
    · exact h4 a (List.mem_cons_of_mem _ ha') hc
    · exact hne hc
  · intro x hx
    exact h5 x (List.mem_cons_of_mem _ hx)

theorem poolInv_release (regQ : String → Option Bool) (s : PoolState) (uid : String)
    (h : PoolInv regQ s) : PoolInv regQ (releaseAddress regQ s uid) := by
  cases hl : lookupUsed s.used uid with
  | none => rw [releaseAddress_eq_of_none regQ s uid hl]; exact h
  | some e =>
    have hmem : (uid, e) ∈ s.used := lookupUsed_some_mem _ _ _ hl
    have haddr_mem : e.address ∈ usedAddrs s :=
      List.mem_map.mpr ⟨(uid, e), hmem, rfl⟩
    have hsub : List.Sublist (removeUsed s.used uid) s.used := List.filter_sublist _
    have h2' : ((removeUsed s.used uid).map (fun p => p.2.address)).Nodup :=
      List.Nodup.sublist (hsub.map _) h.used_nodup
    have h3' : ((removeUsed s.used uid).map (fun p => p.1)).Nodup :=
      List.Nodup.sublist (hsub.map _) h.keys_nodup
    have hsubset : ∀ a, a ∈ (removeUsed s.used uid).map (fun p => p.2.address) →
        a ∈ usedAddrs s := fun a ha => (hsub.map _).subset ha
    have hnotin : e.address ∉ (removeUsed s.used uid).map (fun p => p.2.address) :=
      not_mem_map_filter (fun p => p.2.address) s.used h.used_nodup
        (uid, e) hmem (fun p => p.1 != uid) (by simp)
    cases hr : regQ e.address with
    | none =>
      rw [releaseAddress_eq_of_query_raises regQ s uid e hl hr]
      exact ⟨h.avail_nodup, h2', h3',
        fun a ha hc => h.disjoint a ha (hsubset a hc), h.no_registered⟩
    | some b =>
      cases b with
      | true =>
        rw [releaseAddress_eq_of_registered regQ s uid e hl hr]
        exact ⟨h.avail_nodup, h2', h3',
          fun a ha hc => h.disjoint a ha (hsubset a hc), h.no_registered⟩
      | false =>
        rw [releaseAddress_eq_of_unregistered regQ s uid e hl hr]
        refine ⟨?_, h2', h3', ?_, ?_⟩
        · show ((s.available ++ [e]).map (fun q => q.address)).Nodup
          simp only [List.map_append, List.map_cons, List.map_nil]
          rw [List.nodup_append]
          refine ⟨h.avail_nodup, List.nodup_singleton _, ?_⟩
          intro a ha hb
          simp only [List.mem_singleton] at hb
          exact h.disjoint a ha (hb ▸ haddr_mem)
        · intro a ha
          simp only [availAddrs, List.map_append, List.map_cons, List.map_nil,
            List.mem_append, List.mem_singleton] at ha
          rcases ha with ha | rfl
          · exact fun hc => h.disjoint a ha (hsubset a hc)
          · exact hnotin
        · intro x hx
          simp only [List.mem_append, List.mem_singleton] at hx
          rcases hx with hx | rfl
          · exact h.no_registered x hx
          · rw [hr]; simp

theorem poolInv_acquire (regQ : String → Option Bool) (bal : String → Bool) (connOk : Bool)
    (s : PoolState) (uid : String) (h : PoolInv regQ s) :
    PoolInv regQ (getAddress regQ bal connOk s uid).2 := by
  cases hl : lookupUsed s.used uid with
  | some e =>
    rw [getAddress_eq_of_bound regQ bal connOk s uid e hl]
    exact h
  | none =>
    have hk : ∀ p ∈ s.used, p.1 ≠ uid := (lookupUsed_none_iff _ _).mp hl
    cases hav : s.available with
    | cons e rest =>
      rw [getAddress_eq_of_pop regQ bal connOk s uid e rest hl hav]
      have hs : s = ⟨e :: rest, s.used⟩ := by
        cases s; simp_all
      exact poolInv_pop regQ e rest s.used uid (hs ▸ h) hk
    | nil =>
      have h1 : PoolInv regQ (loadAddresses regQ bal connOk s) :=
        poolInv_load regQ bal connOk s h
      have hu : (loadAddresses regQ bal connOk s).used = s.used ∨
          (loadAddresses regQ bal connOk s).used = [] := by
        unfold loadAddresses
        split
        · exact Or.inl rfl
        · exact Or.inr rfl
      have hk1 : ∀ p ∈ (loadAddresses regQ bal connOk s).used, p.1 ≠ uid := by
        rcases hu with h' | h' <;> rw [h']
        · exact hk
        · simp
      cases hav1 : (loadAddresses regQ bal connOk s).available with
      | nil =>
        rw [getAddress_eq_of_exhausted regQ bal connOk s uid hl hav hav1]
        exact h1
      | cons e rest =>
        rw [getAddress_eq_of_reload_pop regQ bal connOk s uid e rest hl hav hav1]
        have hs1 : loadAddresses regQ bal connOk s =
            ⟨e :: rest, (loadAddresses regQ bal connOk s).used⟩ := by
          cases hload : loadAddresses regQ bal connOk s
          simp_all
        exact poolInv_pop regQ e rest _ uid (hs1 ▸ h1) hk1

/-! ## Claim theorems for the address pool -/

/-- C8: acquire is idempotent — for an identity that already has a
binding in the used map, `get_address` returns the existing
`(address, private_key)` pair and leaves the pool state unchanged, so
any number of repeated calls return the same binding. -/
theorem get_address_idempotent (regQ : String → Option Bool) (bal : String → Bool)
    (connOk : Bool) (s : PoolState) (uid : String) (e : AddrEntry)
    (h : lookupUsed s.used uid = some e) :
    getAddress regQ bal connOk s uid = (some (e.address, e.private_key), s) ∧
    getAddress regQ bal connOk (getAddress regQ bal connOk s uid).2 uid
      = getAddress regQ bal connOk s uid := by
  have h1 := getAddress_eq_of_bound regQ bal connOk s uid e h
  refine ⟨h1, ?_⟩
  rw [h1]
  exact h1

/-- C8 witness: a concrete bound identity gets its stored binding back
and the state is untouched. -/
theorem get_address_idempotent_witness :
    getAddress (fun _ => some false) (fun _ => true) true
        ⟨[], [("u1", ⟨"0xA", "0xK"⟩)]⟩ "u1"
      = (some ("0xA", "0xK"), ⟨[], [("u1", ⟨"0xA", "0xK"⟩)]⟩) :=
  (get_address_idempotent (fun _ => some false) (fun _ => true) true
    ⟨[], [("u1", ⟨"0xA", "0xK"⟩)]⟩ "u1" ⟨"0xA", "0xK"⟩ rfl).1

/-- C5 counterexample: releasing an identity whose bound address is
registered on the ledger is not a no-op — the binding is popped from
the used map, so the pool state changes. -/
theorem release_registered_changes_used_map :
    releaseAddress (fun _ => some true) ⟨[], [("u1", ⟨"0xA", "0xK"⟩)]⟩ "u1"
      ≠ ⟨[], [("u1", ⟨"0xA", "0xK"⟩)]⟩ := by
  decide

/-- C5 amended: `release_address(X)` is a no-op when `X` has no binding;
when `X`'s bound address is registered on the ledger, the address is
not returned to the available pool (the available list is unchanged),
but the binding is removed from the used map rather than the whole
state staying unchanged. -/
theorem release_address_amended (regQ : String → Option Bool) (s : PoolState) (uid : String) :
    (lookupUsed s.used uid = none → releaseAddress regQ s uid = s) ∧
    (∀ e, lookupUsed s.used uid = some e → regQ e.address = some true →
      (releaseAddress regQ s uid).available = s.available ∧
      (releaseAddress regQ s uid).used = removeUsed s.used uid) := by
  constructor
  · intro h
    exact releaseAddress_eq_of_none regQ s uid h
  · intro e he hr
    rw [releaseAddress_eq_of_registered regQ s uid e he hr]
    exact ⟨rfl, rfl⟩

/-- C5 amended witness: concrete unknown-identity no-op and concrete
registered-address release keeping the available list unchanged while
dropping the binding. -/
theorem release_address_amended_witness :
    releaseAddress (fun _ => some true) ⟨[], []⟩ "ux" = ⟨[], []⟩ ∧
    (releaseAddress (fun _ => some true) ⟨[], [("u1", ⟨"0xA", "0xK"⟩)]⟩ "u1").available
      = [] ∧
    (releaseAddress (fun _ => some true) ⟨[], [("u1", ⟨"0xA", "0xK"⟩)]⟩ "u1").used
      = removeUsed [("u1", ⟨"0xA", "0xK"⟩)] "u1" :=
  ⟨(release_address_amended (fun _ => some true) ⟨[], []⟩ "ux").1 rfl,
   ((release_address_amended (fun _ => some true)
      ⟨[], [("u1", ⟨"0xA", "0xK"⟩)]⟩ "u1").2 ⟨"0xA", "0xK"⟩ rfl rfl).1,
   ((release_address_amended (fun _ => some true)
      ⟨[], [("u1", ⟨"0xA", "0xK"⟩)]⟩ "u1").2 ⟨"0xA", "0xK"⟩ rfl rfl).2⟩

/-- C9: every sequence of pool operations (`get_address`,
`release_address`, `_load_addresses`) preserves the pool invariant —
addresses are bound to at most one identity, no address is both
available and used, and no ledger-registered address is in the
available pool. -/
theorem pool_operations_preserve_invariant (regQ : String → Option Bool)
    (ops : List PoolOp) (s : PoolState) (h : PoolInv regQ s) :
    PoolInv regQ (ops.foldl (poolStep regQ) s) := by
  induction ops generalizing s with
  | nil => exact h
  | cons op rest ih =>
    apply ih
    cases op with
    | acquire uid bal connOk => exact poolInv_acquire regQ bal connOk s uid h
    | release uid => exact poolInv_release regQ s uid h
    | reload bal connOk => exact poolInv_load regQ bal connOk s h

/-- C9 witness: the invariant holds after running a concrete sequence of
acquire, release and reload operations from a concrete valid state. -/
theorem pool_operations_preserve_invariant_witness :
    PoolInv regQdemo (opsDemo.foldl (poolStep regQdemo) poolDemo) :=
  pool_operations_preserve_invariant regQdemo opsDemo poolDemo
    (by refine ⟨?_, ?_, ?_, ?_, ?_⟩ <;> decide)

/-! ## Claim theorems for the policy check, consent engine and codec -/

/-- C4: `check_permission` is a pure function of the requester type,
data type, emergency flag and looked-up policy, evaluated with the
deterministic precedence (1) emergency with auto-share-emergency
approves, (2) requester type outside share_with denies, (3) consent
required and no emergency gives the non-auto-approved outcome,
(4) otherwise approves; on `insPolicy` with requester "insurance",
non-emergency is not auto-approved and emergency is auto-approved. -/
theorem check_permission_precedence (wallets : List (String × WalletRec))
    (requester_type owner_did data_type : String) (is_emergency : Bool)
    (w : WalletRec) (p : Policy)
    (hw : lookupStr wallets owner_did = some w)
    (hp : lookupStr w.policies data_type = some p) :
    (check_permission wallets requester_type owner_did data_type is_emergency
      = (is_emergency && p.auto_share_emergency
         || (p.share_with.contains requester_type
             && !(p.requires_consent && !is_emergency)))) ∧
    (is_emergency = true → p.auto_share_emergency = true →
      check_permission wallets requester_type owner_did data_type is_emergency = true) ∧
    ((is_emergency && p.auto_share_emergency) = false →
      p.share_with.contains requester_type = false →
      check_permission wallets requester_type owner_did data_type is_emergency = false) ∧
    ((is_emergency && p.auto_share_emergency) = false →
      p.share_with.contains requester_type = true →
      (p.requires_consent && !is_emergency) = true →
      check_permission wallets requester_type owner_did data_type is_emergency = false) ∧
    ((is_emergency && p.auto_share_emergency) = false →
      p.share_with.contains requester_type = true →
      (p.requires_consent && !is_emergency) = false →
      check_permission wallets requester_type owner_did data_type is_emergency = true) ∧
    check_permission insWallets "insurance" "did:owner" "vehicle_info" false = false ∧
    check_permission insWallets "insurance" "did:owner" "vehicle_info" true = true := by
  have heq : check_permission wallets requester_type owner_did data_type is_emergency
      = (is_emergency && p.auto_share_emergency
         || (p.share_with.contains requester_type
             && !(p.requires_consent && !is_emergency))) := by
    simp only [check_permission, hw, hp]
    cases hem : is_emergency <;> cases hauto : p.auto_share_emergency <;>
      cases hcont : p.share_with.contains requester_type <;>
      cases hrc : p.requires_consent <;> simp
  refine ⟨heq, ?_, ?_, ?_, ?_, by decide, by decide⟩
  · intro h1 h2
    rw [heq, h1, h2]
    simp
  · intro h1 h2
    rw [heq, h1, h2]
    simp
  · intro h1 h2 h3
    rw [heq, h1, h2, h3]
    simp
  · intro h1 h2 h3
    rw [heq, h1, h2, h3]
    simp

/-- C4 witness: the two concrete outcomes for the insurance policy,
obtained from the precedence theorem at concrete inputs. -/
theorem check_permission_precedence_witness :
    check_permission insWallets "insurance" "did:owner" "vehicle_info" false = false ∧
    check_permission insWallets "insurance" "did:owner" "vehicle_info" true = true :=
  ⟨(check_permission_precedence insWallets "insurance" "did:owner" "vehicle_info" false
      ⟨[("vehicle_info", insPolicy)]⟩ insPolicy rfl rfl).2.2.2.2.2.1,
   (check_permission_precedence insWallets "insurance" "did:owner" "vehicle_info" true
      ⟨[("vehicle_info", insPolicy)]⟩ insPolicy rfl rfl).2.2.2.2.2.2⟩

/-- C2 counterexample: an absent User Wallet Approval marker is not
treated as `wallet_approval = no`.  With the Decision marker capturing
"approve", an explicit "no" auto-shares and records an approval, while
an absent marker leaves the request pending with nothing recorded —
and the spec-stated defaults would have recorded an approval. -/
theorem respond_absent_wallet_marker_not_no :
    respond_to_request "r1" ⟨some "approve", none, none, none⟩
      = (.pendingBody, 0) ∧
    respond_to_request "r1" ⟨some "approve", none, some "no", none⟩
      = (.approvalRecorded "r1", 1) ∧
    respond_to_request_specDefaults "r1" ⟨some "approve", none, none, none⟩
      = (.approvalRecorded "r1", 1) := by
  decide

/-- C2 amended: absent markers default to the sentinel string "None"
(not to "deny"/"no"); "None" matches neither "approve" nor "no", so
whenever the Decision marker — or the wallet-approval marker — is
absent, the auto-share branch is not taken, the request is not resolved
as approved, and no approval response is recorded on the ledger. -/
theorem respond_omitted_decision_never_approves (request_id : String) (p : OracleParse)
    (h : p.decision = none ∨ p.wallet_approval = none) :
    respond_to_request request_id p = (.pendingBody, 0) := by
  rcases h with h | h
  · have hd : (strLower (decisionValue p) == "approve") = false := by
      unfold decisionValue
      rw [h]
      decide
    simp [respond_to_request, hd]
  · have hw : (strLower (walletApprovalValue p) == "no") = false := by
      unfold walletApprovalValue
      rw [h]
      decide
    simp [respond_to_request, hw]

/-- C2 amended witness: a fully markerless oracle text resolves to the
pending branch with zero ledger records. -/
theorem respond_omitted_decision_never_approves_witness :
    respond_to_request "r1" ⟨none, none, none, none⟩ = (.pendingBody, 0) :=
  respond_omitted_decision_never_approves "r1" ⟨none, none, none, none⟩ (Or.inl rfl)

/-- C3 counterexample: with the sender on the blocked list, handling the
request still invokes the oracle (`process_request`) once — not zero
times — because the block check only happens after the LLM call. -/
theorem blocked_sender_oracle_called_once :
    (handle_pending_request [⟨"did:mech", "t0", "suspicious"⟩] "did:mech" "ANY TEXT").1
      = 1 ∧
    handle_pending_request [⟨"did:mech", "t0", "suspicious"⟩] "did:mech" "ANY TEXT"
      ≠ (0, .skippedBlocked) := by
  decide

/-- C3 amended: a blocked sender's pending request is skipped — left
pending, with no response recorded and no denial issued — but only
after the oracle has already been invoked once; the block check does
not short-circuit the oracle call. -/
theorem blocked_sender_skipped_after_oracle (blocked : List BlockedUser)
    (sender oracleText : String)
    (h : blocked.any (fun u => u.did == sender) = true) :
    handle_pending_request blocked sender oracleText = (1, .skippedBlocked) := by
  simp [handle_pending_request, h]

/-- C3 amended witness: a concretely blocked mechanic DID is skipped
with exactly one oracle call. -/
theorem blocked_sender_skipped_after_oracle_witness :
    handle_pending_request [⟨"did:mech", "t0", "suspicious"⟩] "did:mech" "SOME TEXT"
      = (1, .skippedBlocked) :=
  blocked_sender_skipped_after_oracle [⟨"did:mech", "t0", "suspicious"⟩]
    "did:mech" "SOME TEXT" (by decide)

/-- C10: the DIDComm envelope codec round-trips — for any message
without the three tag keys, decrypt after encrypt restores the message
exactly; encryption leaves every non-tag field readable in plaintext;
and the decryption key is never used. -/
theorem didcomm_encrypt_decrypt_roundtrip (message : PyDict) (s r k : String)
    (h1 : message "encrypted" = none) (h2 : message "sender_key" = none)
    (h3 : message "recipient_key" = none) :
    decrypt_didcomm_message (encrypt_didcomm_message message s r) k = message ∧
    (∀ key, key ≠ "encrypted" → key ≠ "sender_key" → key ≠ "recipient_key" →
      encrypt_didcomm_message message s r key = message key) ∧
    (∀ em : PyDict, ∀ k1 k2 : String,
      decrypt_didcomm_message em k1 = decrypt_didcomm_message em k2) := by
  refine ⟨?_, ?_, ?_⟩
  · funext key
    unfold decrypt_didcomm_message encrypt_didcomm_message
    by_cases hk1 : key = "encrypted"
    · simp [hk1, h1]
    · by_cases hk2 : key = "sender_key"
      · simp [hk1, hk2, h2]
      · by_cases hk3 : key = "recipient_key"
        · simp [hk1, hk2, hk3, h3]
        · simp [hk1, hk2, hk3]
  · intro key hk1 hk2 hk3
    unfold encrypt_didcomm_message
    simp [hk1, hk2, hk3]
  · intro em k1 k2
    rfl

/-- C10 witness: a concrete one-field body survives the round-trip. -/
theorem didcomm_encrypt_decrypt_roundtrip_witness :
    decrypt_didcomm_message (encrypt_didcomm_message demoMessage "sk" "rk") "dk"
      = demoMessage :=
  (didcomm_encrypt_decrypt_roundtrip demoMessage "sk" "rk" "dk" rfl rfl rfl).1

/-! ## Claim theorems for the ownership transfer -/

theorem transferOwnership_cons (newOwner : String) (b : InfoBlock) (rest : List InfoBlock) :
    transferOwnership newOwner ⟨b :: rest⟩
      = ⟨⟨some newOwner, some (b.previous_owners.getD [] ++ [b.owner_did])⟩ :: rest⟩ := by
  simp [transferOwnership]

theorem transferMany_chain (owners : List String) (c : String)
    (ps : List (Option String)) (rest : List InfoBlock) :
    transferMany owners ⟨⟨some c, some ps⟩ :: rest⟩
      = ⟨⟨some (owners.getLastD c),
          some (ps ++ (c :: owners).dropLast.map some)⟩ :: rest⟩ := by
  induction owners generalizing c ps with
  | nil => simp [transferMany]
  | cons o os ih =>
    show transferMany os (transferOwnership o ⟨⟨some c, some ps⟩ :: rest⟩) = _
    rw [transferOwnership_cons, ih, List.getLastD_cons]
    simp

/-- C7: starting from a vehicle document whose first info block carries
`owner_did = o0` and no previous owners, N successive ownership
transfers with new owners `o1 .. oN` leave `previous_owners` equal to
the former owners in transfer order (length N) and `owner_did` equal to
the Nth new owner; the remaining info blocks are untouched. -/
theorem ownership_transfer_history (owners : List String) (b0 : InfoBlock)
    (rest : List InfoBlock) (o0 : String)
    (hN : owners ≠ [])
    (hod : b0.owner_did = some o0)
    (hpo : b0.previous_owners.getD [] = []) :
    transferMany owners ⟨b0 :: rest⟩
      = ⟨⟨some (owners.getLastD o0),
          some ((o0 :: owners).dropLast.map some)⟩ :: rest⟩ ∧
    ((o0 :: owners).dropLast.map some).length = owners.length := by
  constructor
  · cases owners with
    | nil => exact absurd rfl hN
    | cons o os =>
      show transferMany os (transferOwnership o ⟨b0 :: rest⟩) = _
      rw [transferOwnership_cons, hpo, hod]
      rw [transferMany_chain, List.getLastD_cons]
      simp
  · simp

/-- C7 witness: two concrete transfers produce
`previous_owners = [o0, o1]` and `owner_did = o2`. -/
theorem ownership_transfer_history_witness :
    transferMany ["o1", "o2"] ⟨[⟨some "o0", none⟩, ⟨none, none⟩]⟩
      = ⟨⟨some (["o1", "o2"].getLastD "o0"),
          some ((["o0", "o1", "o2"]).dropLast.map some)⟩ :: [⟨none, none⟩]⟩ ∧
    ((["o0", "o1", "o2"]).dropLast.map some).length = ["o1", "o2"].length :=
  ownership_transfer_history ["o1", "o2"] ⟨some "o0", none⟩ [⟨none, none⟩] "o0"
    (by decide) rfl rfl

/-! ## Claim theorems for the credential round-trip -/

theorem ledgerGet_put (l : CredLedger) (cid : String) (vc : VC) :
    ledgerGet (ledgerPut l cid vc) cid = some vc := by
  simp [ledgerGet, ledgerPut]

theorem ledgerGet_mutate (l : CredLedger) (cid : String) (f : VC → VC) (vc : VC)
    (h : ledgerGet l cid = some vc) :
    ledgerGet (mutateStored l cid f) cid = some (f vc) := by
  induction l with
  | nil => simp [ledgerGet] at h
  | cons p t ih =>
    by_cases hc : (p.1 == cid) = true
    · have hv : p.2 = vc := by
        have hfh : List.find? (fun q => q.1 == cid) (p :: t) = some p :=
          List.find?_cons_of_pos _ hc
        unfold ledgerGet at h
        rw [hfh] at h
        simpa using h
      have hhead : mutateStored (p :: t) cid f = (p.1, f p.2) :: mutateStored t cid f := by
        unfold mutateStored
        rw [List.map_cons]
        congr 1
        rw [if_pos hc]
      have hfind : List.find? (fun q => q.1 == cid) ((p.1, f p.2) :: mutateStored t cid f)
          = some (p.1, f p.2) := List.find?_cons_of_pos _ hc
      rw [hhead]
      unfold ledgerGet
      rw [hfind]
      simp [hv]
    · have hc' : (p.1 == cid) = false := by simpa using hc
      have ht : ledgerGet t cid = some vc := by
        have hfh : List.find? (fun q => q.1 == cid) (p :: t)
            = List.find? (fun q => q.1 == cid) t :=
          List.find?_cons_of_neg _ (by simp [hc'])
        unfold ledgerGet at h
        rw [hfh] at h
        exact h
      have hhead : mutateStored (p :: t) cid f = p :: mutateStored t cid f := by
        unfold mutateStored
        rw [List.map_cons]
        congr 1
        rw [if_neg (by simp [hc'])]
      have hfind : List.find? (fun q => q.1 == cid) (p :: mutateStored t cid f)
          = List.find? (fun q => q.1 == cid) (mutateStored t cid f) :=
        List.find?_cons_of_neg _ (by simp [hc'])
      rw [hhead]
      unfold ledgerGet
      rw [hfind]
      exact ih ht

/-- C1 counterexample: issue a credential concretely, then mutate the
stored claim field; verification by credential id still succeeds and
returns the mutated claims instead of failing, because
`verify_credential` performs no digest recomputation. -/
theorem verify_credential_mutation_not_detected :
    verify_credential
        (mutateStored demoIssued.2 "did:ssi:credential:c1"
          (fun vc => { vc with claims := [("mileage", "999999")] }))
        "did:ssi:credential:c1" ≠ none ∧
    (verify_credential
        (mutateStored demoIssued.2 "did:ssi:credential:c1"
          (fun vc => { vc with claims := [("mileage", "999999")] }))
        "did:ssi:credential:c1").map (fun vc => vc.claims)
      = some [("mileage", "999999")] := by
  decide

/-- C1 amended: for an issuer with stored key material and a pool
address, create-then-verify returns the stored credential (the truthy
round-trip holds), but verification is pure retrieval: it recomputes no
digest over any canonical form, and after any mutation of the stored
credential verification still returns the mutated credential rather
than failing. -/
theorem verify_credential_retrieval_roundtrip
    (addr : String × String) (keyOf : String → Option String)
    (sign : String → String → String) (ser : VC → String)
    (credId issuanceDate proofCreated : String)
    (ledger : CredLedger) (issuer subject : String)
    (claims : List (String × String)) (pk : String)
    (hkey : keyOf issuer = some pk) :
    ∃ full : VC,
      (create_credential (some addr) keyOf sign ser credId issuanceDate proofCreated
          true ledger issuer subject claims).1 = some full ∧
      verify_credential
        (create_credential (some addr) keyOf sign ser credId issuanceDate proofCreated
          true ledger issuer subject claims).2 credId = some full ∧
      full.claims = claims ∧
      (∀ f : VC → VC,
        verify_credential
          (mutateStored
            (create_credential (some addr) keyOf sign ser credId issuanceDate proofCreated
              true ledger issuer subject claims).2 credId f) credId
          = some (f full)) := by
  simp only [create_credential, hkey]
  exact ⟨_, rfl, ledgerGet_put _ _ _, rfl,
    fun f => ledgerGet_mutate _ _ f _ (ledgerGet_put _ _ _)⟩

/-- C1 amended witness: concrete issuance round-trips and survives a
concrete mutation as `some` of the mutated credential. -/
theorem verify_credential_retrieval_roundtrip_witness :
    ∃ full : VC,
      (create_credential (some ("0xA", "0xK")) demoKeys demoSign demoSer
          "did:ssi:credential:c1" "2025-01-01T00:00:00" "2025-01-01T00:00:00"
          true [] "did:iss" "did:sub" [("mileage", "10000")]).1 = some full ∧
      verify_credential
        (create_credential (some ("0xA", "0xK")) demoKeys demoSign demoSer
          "did:ssi:credential:c1" "2025-01-01T00:00:00" "2025-01-01T00:00:00"
          true [] "did:iss" "did:sub" [("mileage", "10000")]).2
        "did:ssi:credential:c1" = some full ∧
      full.claims = [("mileage", "10000")] ∧
      (∀ f : VC → VC,
        verify_credential
          (mutateStored
            (create_credential (some ("0xA", "0xK")) demoKeys demoSign demoSer
              "did:ssi:credential:c1" "2025-01-01T00:00:00" "2025-01-01T00:00:00"
              true [] "did:iss" "did:sub" [("mileage", "10000")]).2
            "did:ssi:credential:c1" f) "did:ssi:credential:c1"
          = some (f full)) :=
  verify_credential_retrieval_roundtrip ("0xA", "0xK") demoKeys demoSign demoSer
    "did:ssi:credential:c1" "2025-01-01T00:00:00" "2025-01-01T00:00:00"
    [] "did:iss" "did:sub" [("mileage", "10000")] "PK1" rfl

/-! ## Claim theorems for the identity-creation saga -/

theorem lookupUsed_append_self (used : List (String × AddrEntry)) (uid : String)
    (e : AddrEntry) (h : lookupUsed used uid = none) :
    lookupUsed (used ++ [(uid, e)]) uid = some e := by
  induction used with
  | nil => simp [lookupUsed]
  | cons p t ih =>
    have hp : (p.1 == uid) = false := by
      have := (lookupUsed_none_iff (p :: t) uid).mp h p (List.mem_cons_self _ _)
      simpa using this
    have ht : lookupUsed t uid = none := by
      apply (lookupUsed_none_iff t uid).mpr
      intro q hq
      exact (lookupUsed_none_iff (p :: t) uid).mp h q (List.mem_cons_of_mem _ hq)
    have hrec := ih ht
    unfold lookupUsed at hrec ⊢
    simpa [hp] using hrec

theorem getAddress_some_binding (regQ : String → Option Bool) (bal : String → Bool)
    (connOk : Bool) (s : PoolState) (uid : String) (a k : String) (s1 : PoolState)
    (h : getAddress regQ bal connOk s uid = (some (a, k), s1)) :
    lookupUsed s1.used uid = some ⟨a, k⟩ := by
  cases hl : lookupUsed s.used uid with
  | some e =>
    rw [getAddress_eq_of_bound regQ bal connOk s uid e hl] at h
    obtain ⟨h1, h2⟩ := Prod.mk.injEq .. ▸ h
    injection h1 with h1
    injection h1 with ha hk
    cases h2
    rw [hl]
    cases e
    simp_all
  | none =>
    cases hav : s.available with
    | cons e rest =>
      rw [getAddress_eq_of_pop regQ bal connOk s uid e rest hl hav] at h
      obtain ⟨h1, h2⟩ := Prod.mk.injEq .. ▸ h
      injection h1 with h1
      injection h1 with ha hk
      cases h2
      have : (⟨a, k⟩ : AddrEntry) = e := by
        cases e; simp_all
      rw [this]
      exact lookupUsed_append_self s.used uid e hl
    | nil =>
      have hl1 : lookupUsed (loadAddresses regQ bal connOk s).used uid = none := by
        have hu : (loadAddresses regQ bal connOk s).used = s.used ∨
            (loadAddresses regQ bal connOk s).used = [] := by
          unfold loadAddresses
          split
          · exact Or.inl rfl
          · exact Or.inr rfl
        rcases hu with h' | h' <;> rw [h']
        · exact hl
        · rfl
      cases hav1 : (loadAddresses regQ bal connOk s).available with
      | cons e rest =>
        rw [getAddress_eq_of_reload_pop regQ bal connOk s uid e rest hl hav hav1] at h
        obtain ⟨h1, h2⟩ := Prod.mk.injEq .. ▸ h
        injection h1 with h1
        injection h1 with ha hk
        cases h2
        have : (⟨a, k⟩ : AddrEntry) = e := by
          cases e; simp_all
        rw [this]
        exact lookupUsed_append_self _ uid e hl1
      | nil =>
        rw [getAddress_eq_of_exhausted regQ bal connOk s uid hl hav hav1] at h
        obtain ⟨h1, h2⟩ := Prod.mk.injEq .. ▸ h
        exact absurd h1 (by simp)

/-- C6 counterexample: a concrete run of `create_did` in which an
exception occurs after the signing address was acquired: the operation
returns None but the acquired binding is still in the used map and the
address is not back in the available pool — no release happened,
because the compensating branch guards on a variable `user_id` that
never exists. -/
theorem create_did_exception_leaks_binding :
    create_did (fun _ => some false) (fun _ => true) true
        ⟨[⟨"0xA", "0xKa"⟩], []⟩ "did:e" .exceptionAfterAcquire
      = ⟨none, ⟨[], [("did:e", ⟨"0xA", "0xKa"⟩)]⟩, false⟩ := by
  decide

/-- C6 amended: after a successful acquisition every failure mode
returns None; the three explicit ledger-write failures invoke
`release_address` — the registration failure re-pools the address when
the ledger still reports it unregistered, while the two document-store
failures run after `register_user` succeeded, so the release drops the
binding without returning the address to the available pool; an
exception after acquisition performs no release at all and leaves the
binding in the used map. -/
theorem create_did_compensation_amended (regQ : String → Option Bool)
    (bal : String → Bool) (connOk : Bool) (s : PoolState) (entity_did : String)
    (a k : String) (s1 : PoolState)
    (hacq : getAddress regQ bal connOk s entity_did = (some (a, k), s1)) :
    (∀ m : CreateFailure, m ≠ .noFailure →
      (create_did regQ bal connOk s entity_did m).result = none) ∧
    ((create_did regQ bal connOk s entity_did .registerUserFails).releaseCalled = true ∧
     (regQ a = some false →
       (create_did regQ bal connOk s entity_did .registerUserFails).pool
         = ⟨s1.available ++ [⟨a, k⟩], removeUsed s1.used entity_did⟩)) ∧
    ((create_did regQ bal connOk s entity_did .entityDocStoreFails).releaseCalled = true ∧
     (create_did regQ bal connOk s entity_did .entityDocStoreFails).pool
       = ⟨s1.available, removeUsed s1.used entity_did⟩) ∧
    ((create_did regQ bal connOk s entity_did .walletDocStoreFails).releaseCalled = true ∧
     (create_did regQ bal connOk s entity_did .walletDocStoreFails).pool
       = ⟨s1.available, removeUsed s1.used entity_did⟩) ∧
    ((create_did regQ bal connOk s entity_did .exceptionAfterAcquire).releaseCalled
        = false ∧
     (create_did regQ bal connOk s entity_did .exceptionAfterAcquire).pool = s1 ∧
     lookupUsed
       (create_did regQ bal connOk s entity_did .exceptionAfterAcquire).pool.used
       entity_did = some ⟨a, k⟩) := by
  have hbind : lookupUsed s1.used entity_did = some ⟨a, k⟩ :=
    getAddress_some_binding regQ bal connOk s entity_did a k s1 hacq
  have hregeff : registerEffect regQ a (⟨a, k⟩ : AddrEntry).address = some true := by
    simp [registerEffect]
  refine ⟨?_, ⟨?_, ?_⟩, ⟨?_, ?_⟩, ⟨?_, ?_⟩, ?_, ?_, ?_⟩
  · intro m hm
    cases m with
    | noFailure => exact absurd rfl hm
    | registerUserFails => simp [create_did, hacq]
    | entityDocStoreFails => simp [create_did, hacq]
    | walletDocStoreFails => simp [create_did, hacq]
    | exceptionAfterAcquire => simp [create_did, hacq]
  · simp [create_did, hacq]
  · intro hreg
    simp only [create_did, hacq]
    exact releaseAddress_eq_of_unregistered regQ s1 entity_did ⟨a, k⟩ hbind hreg
  · simp [create_did, hacq]
  · simp only [create_did, hacq]
    exact releaseAddress_eq_of_registered (registerEffect regQ a) s1 entity_did
      ⟨a, k⟩ hbind hregeff
  · simp [create_did, hacq]
  · simp only [create_did, hacq]
    exact releaseAddress_eq_of_registered (registerEffect regQ a) s1 entity_did
      ⟨a, k⟩ hbind hregeff
  · simp [create_did, hacq]
  · simp [create_did, hacq]
  · simp only [create_did, hacq]
    exact hbind

/-- C6 amended witness: the compensation behaviour at a concrete pool
with one available address, including the leaked binding on the
exception path. -/
theorem create_did_compensation_amended_witness :
    (create_did (fun _ => some false) (fun _ => true) true
        ⟨[⟨"0xA", "0xKa"⟩], []⟩ "did:e" .registerUserFails).releaseCalled = true ∧
    (create_did (fun _ => some false) (fun _ => true) true
        ⟨[⟨"0xA", "0xKa"⟩], []⟩ "did:e" .exceptionAfterAcquire).releaseCalled = false ∧
    lookupUsed
      (create_did (fun _ => some false) (fun _ => true) true
          ⟨[⟨"0xA", "0xKa"⟩], []⟩ "did:e" .exceptionAfterAcquire).pool.used
      "did:e" = some ⟨"0xA", "0xKa"⟩ :=
  ⟨(create_did_compensation_amended (fun _ => some false) (fun _ => true) true
      ⟨[⟨"0xA", "0xKa"⟩], []⟩ "did:e" "0xA" "0xKa"
      ⟨[], [("did:e", ⟨"0xA", "0xKa"⟩)]⟩ rfl).2.1.1,
   (create_did_compensation_amended (fun _ => some false) (fun _ => true) true
      ⟨[⟨"0xA", "0xKa"⟩], []⟩ "did:e" "0xA" "0xKa"
      ⟨[], [("did:e", ⟨"0xA", "0xKa"⟩)]⟩ rfl).2.2.2.2.1,
   (create_did_compensation_amended (fun _ => some false) (fun _ => true) true
      ⟨[⟨"0xA", "0xKa"⟩], []⟩ "did:e" "0xA" "0xKa"
      ⟨[], [("did:e", ⟨"0xA", "0xKa"⟩)]⟩ rfl).2.2.2.2.2.2⟩

end SSIIOV
